import Mathlib

/-!
Verification of the CSV Ball-Stick visualizer (src/DataVisualizer.py).

The add-on reads a two-column CSV, min-max normalizes both columns,
places one sphere per row at (normX * spacing, normY * spacing, 0) with a
red-to-green color gradient, and connects consecutive spheres with gray
cylinders.  We embed the geometry-emitting core and the two operator
`execute` methods as pure Lean functions over exact rationals (the Python
code computes with floats; we model the intended real-number arithmetic
exactly), and prove the documented layout properties against them.
-/

namespace DataVisualizer

/-- Vectors of `mathutils.Vector` restricted to the three components the
add-on uses, with rational coordinates. -/
@[ext]
structure Vec3 where
  x : ℚ
  y : ℚ
  z : ℚ
  deriving DecidableEq, Inhabited

instance : Add Vec3 := ⟨fun a b => ⟨a.x + b.x, a.y + b.y, a.z + b.z⟩⟩

instance : Sub Vec3 := ⟨fun a b => ⟨a.x - b.x, a.y - b.y, a.z - b.z⟩⟩

/-- Scalar division `v / c`, as in `direction / 2` in `add_cylinder_between`. -/
instance : HDiv Vec3 ℚ Vec3 := ⟨fun v c => ⟨v.x / c, v.y / c, v.z / c⟩⟩

theorem Vec3.add_def (a b : Vec3) : a + b = ⟨a.x + b.x, a.y + b.y, a.z + b.z⟩ := rfl

theorem Vec3.sub_def (a b : Vec3) : a - b = ⟨a.x - b.x, a.y - b.y, a.z - b.z⟩ := rfl

theorem Vec3.hdiv_def (v : Vec3) (c : ℚ) : v / c = ⟨v.x / c, v.y / c, v.z / c⟩ := rfl

/-- Squared Euclidean norm.  `mathutils` exposes `direction.length`, which is
the (nonnegative) square root of this quantity; we carry the square so that
everything stays inside `ℚ`. -/
def Vec3.lengthSq (v : Vec3) : ℚ := v.x ^ 2 + v.y ^ 2 + v.z ^ 2

/-- RGBA color, components rational (source uses float literals). -/
@[ext]
structure Color where
  r : ℚ
  g : ℚ
  b : ℚ
  a : ℚ
  deriving DecidableEq, Inhabited

/-- Record of one `primitive_uv_sphere_add` call made by `add_sphere`:
location, radius, object name and assigned material color. -/
structure Sphere where
  location : Vec3
  radius : ℚ
  name : String
  color : Color
  deriving DecidableEq, Inhabited

/-- Record of one `primitive_cylinder_add` call made by `add_cylinder_between`.
`depthSq` is the square of the `depth` parameter (`direction.length`);
`track_dir` is the vector passed to `to_track_quat`, and `track_axis` /
`up_axis` are its two axis arguments (the characters Z and Y in the source):
the local `track_axis` of the object is rotated to point along `track_dir`. -/
structure Cylinder where
  location : Vec3
  depthSq : ℚ
  radius : ℚ
  name : String
  color : Color
  track_dir : Vec3
  track_axis : String
  up_axis : String
  deriving DecidableEq, Inhabited

/-- Embeds `add_sphere` (source lines 28-33): emits one sphere record. -/
def add_sphere (location : Vec3) (radius : ℚ) (name : String) (color : Color) : Sphere :=
  { location := location, radius := radius, name := name, color := color }

/-- Embeds `add_cylinder_between` (source lines 35-49):
`direction = end - start`, `depth = direction.length`,
`location = start + direction / 2`, rotation tracks local Z to `direction`. -/
def add_cylinder_between (p1 p2 : Vec3) (radius : ℚ) (name : String) (color : Color) : Cylinder :=
  let start := p1
  let direction := p2 - start
  { location := start + direction / (2 : ℚ)
    depthSq := direction.lengthSq
    radius := radius
    name := name
    color := color
    track_dir := direction
    track_axis := "Z"
    up_axis := "Y" }

/-- Minimum of a column, as `pandas.Series.min` over a nonempty column
(the value on `[]` is irrelevant: the layout loop never reads it). -/
def colMin : List ℚ → ℚ
  | [] => 0
  | a :: l => l.foldl min a

/-- Maximum of a column, as `pandas.Series.max`. -/
def colMax : List ℚ → ℚ
  | [] => 0
  | a :: l => l.foldl max a

/-- Embeds source line 58/59:
`norm = (vals - min) / (max - min) if max != min else vals`. -/
def normalizeCol (col : List ℚ) : List ℚ :=
  if colMax col ≠ colMin col then
    col.map fun v => (v - colMin col) / (colMax col - colMin col)
  else col

/-- The `points` list of `create_ball_stick_model` (source lines 61-64):
`pos = (x * spacing, y * spacing, 0)` for `(x, y)` in `zip(norm_x, norm_y)`. -/
def pointsOf (x_vals y_vals : List ℚ) (spacing : ℚ) : List Vec3 :=
  ((normalizeCol x_vals).zip (normalizeCol y_vals)).map fun p =>
    ⟨p.1 * spacing, p.2 * spacing, 0⟩

/-- Embeds the geometry-emitting body of `create_ball_stick_model`
(source lines 55-69) once the two columns have been converted to floats:
one ball per point named `Ball_i` colored `(i / len(df), 1 - i / len(df), 0.8, 1)`,
and one stick `Stick_i` between consecutive points colored `(0.8, 0.8, 0.8, 1)`.
`nrows` is `len(df)`. -/
def layoutFromCols (x_vals y_vals : List ℚ) (nrows : ℕ)
    (spacing ball_radius stick_radius : ℚ) : List Sphere × List Cylinder :=
  let points := pointsOf x_vals y_vals spacing
  let balls := points.enum.map fun iv =>
    add_sphere iv.2 ball_radius ("Ball_" ++ toString iv.1)
      ⟨(iv.1 : ℚ) / (nrows : ℚ), 1 - (iv.1 : ℚ) / (nrows : ℚ), 4/5, 1⟩
  let sticks := (List.range (points.length - 1)).map fun i =>
    add_cylinder_between (points.getD i ⟨0, 0, 0⟩) (points.getD (i + 1) ⟨0, 0, 0⟩)
      stick_radius ("Stick_" ++ toString i) ⟨4/5, 4/5, 4/5, 1⟩
  (balls, sticks)

/-- The layout on a list of already-numeric samples `(x, y)`, i.e.
`create_ball_stick_model` applied to a well-formed two-column frame whose
rows are `samples` (spec section 4.1 calls this contract `layout`). -/
def layout (samples : List (ℚ × ℚ)) (spacing ball_radius stick_radius : ℚ) :
    List Sphere × List Cylinder :=
  layoutFromCols (samples.map Prod.fst) (samples.map Prod.snd) samples.length
    spacing ball_radius stick_radius

/-- One CSV cell: either a value convertible to float, or a raw string that
`astype(float)` rejects. -/
inductive Cell where
  | num (val : ℚ)
  | nonNumeric (raw : String)
  deriving DecidableEq, Inhabited

/-- Conversion of one cell, as `float()` inside `astype`: a non-numeric cell
raises `ValueError` whose message names the offending field text. -/
def Cell.toFloat : Cell → Except String ℚ
  | .num v => .ok v
  | .nonNumeric raw => .error ("could not convert string to float: " ++ raw)

/-- Embeds `Series.astype(float)`: converts the column in order and raises on
the first non-convertible value. -/
def astypeFloat : List Cell → Except String (List ℚ)
  | [] => .ok []
  | c :: cs =>
    match c.toFloat with
    | .error e => .error e
    | .ok v =>
      match astypeFloat cs with
      | .error e => .error e
      | .ok vs => .ok (v :: vs)

/-- Raw text of the first non-convertible cell of a column, if any. -/
def firstBad : List Cell → Option String
  | [] => none
  | .num _ :: cs => firstBad cs
  | .nonNumeric raw :: _ => some raw

/-- A parsed data frame: named columns in order (pandas guarantees all
columns have the same length; nothing below depends on that invariant). -/
structure Df where
  columns : List (String × List Cell)
  deriving DecidableEq, Inhabited

/-- Header names, as `df.columns`. -/
def Df.colNames (df : Df) : List String := df.columns.map Prod.fst

/-- Column access `df[name]` (first column with that name). -/
def Df.col (df : Df) (name : String) : List Cell := (df.columns.lookup name).getD []

/-- Row count `len(df)`: length of the first column (0 for an empty frame). -/
def Df.nrows (df : Df) : ℕ :=
  match df.columns with
  | [] => 0
  | c :: _ => c.2.length

/-- Embeds `create_ball_stick_model` (source lines 51-69) in full: convert the
x column, then the y column (each failure aborts before any geometry is
emitted, since both `astype` calls precede the loops), then emit geometry. -/
def create_ball_stick_model (df : Df) (x_col y_col : String)
    (spacing ball_radius stick_radius : ℚ) : Except String (List Sphere × List Cylinder) :=
  match astypeFloat (df.col x_col) with
  | .error e => .error e
  | .ok x_vals =>
    match astypeFloat (df.col y_col) with
    | .error e => .error e
    | .ok y_vals => .ok (layoutFromCols x_vals y_vals df.nrows spacing ball_radius stick_radius)

/-- The `CSVVisualizerProps` property group (source lines 74-82). -/
structure CSVVisualizerProps where
  filepath : String
  x_column : String
  y_column : String
  spacing : ℚ
  ball_radius : ℚ
  stick_radius : ℚ
  file_loaded : Bool
  error_message : String
  deriving DecidableEq, Inhabited

/-- Operator return status (the FINISHED / CANCELLED result set). -/
inductive OpStatus where
  | FINISHED
  | CANCELLED
  deriving DecidableEq

/-- Outcome of `CSV_OT_VisualizeGraph.execute`: either the emitted geometry
plus the info report text `Graph created.`, or a `CANCELLED` run with its error
report. -/
inductive VizResult where
  | finished (placements : List Sphere) (connectors : List Cylinder) (info : String)
  | cancelled (err : String)
  deriving DecidableEq

/-- Placements (spheres) realized by a visualize run; none on a cancelled run. -/
def VizResult.placements : VizResult → List Sphere
  | .finished ps _ _ => ps
  | .cancelled _ => []

/-- Connectors (cylinders) realized by a visualize run; none on a cancelled run. -/
def VizResult.connectors : VizResult → List Cylinder
  | .finished _ cs _ => cs
  | .cancelled _ => []

/-- Embeds `CSV_OT_VisualizeGraph.execute` (source lines 109-130) after a
successful `pd.read_csv`.  The source message wraps each column name in
single quote characters; the quote characters are elided here, the names
themselves appear verbatim. -/
def CSV_OT_VisualizeGraph_execute (props : CSVVisualizerProps) (df : Df) : VizResult :=
  if props.x_column ∉ df.colNames ∨ props.y_column ∉ df.colNames then
    .cancelled ("Column " ++ props.x_column ++ " or " ++ props.y_column ++ " not found in CSV.")
  else
    match create_ball_stick_model df props.x_column props.y_column
        props.spacing props.ball_radius props.stick_radius with
    | .ok g => .finished g.1 g.2 "Graph created."
    | .error e => .cancelled ("Failed to visualize: " ++ e)

/-- Embeds `CSV_OT_LoadFile.execute` (source lines 93-103).  `readResult`
stands for the outcome of `pd.read_csv(self.filepath)` (`.error e` when it
raises, with `e` the rendered exception text); the method mutates the scene
properties and always falls through to returning the FINISHED status. -/
def CSV_OT_LoadFile_execute (props : CSVVisualizerProps) (self_filepath : String)
    (readResult : Except String Df) : CSVVisualizerProps × OpStatus :=
  match readResult with
  | .ok _ =>
    ({ props with filepath := self_filepath, file_loaded := true, error_message := "" },
      .FINISHED)
  | .error e =>
    ({ props with file_loaded := false, error_message := "Error reading CSV: " ++ e },
      .FINISHED)

/-! Helper lemmas about column extrema and normalization. -/

theorem foldl_min_le_init (l : List ℚ) (a : ℚ) : l.foldl min a ≤ a := by
  induction l generalizing a with
  | nil => exact le_refl a
  | cons b t ih => exact le_trans (ih (min a b)) (min_le_left a b)

theorem foldl_min_le_mem (l : List ℚ) (a b : ℚ) (hb : b ∈ l) : l.foldl min a ≤ b := by
  induction l generalizing a with
  | nil => cases hb
  | cons c t ih =>
    rcases List.mem_cons.mp hb with h | h
    · subst h
      exact le_trans (foldl_min_le_init t (min a b)) (min_le_right a b)
    · exact ih (min a c) h

theorem le_foldl_max_init (l : List ℚ) (a : ℚ) : a ≤ l.foldl max a := by
  induction l generalizing a with
  | nil => exact le_refl a
  | cons b t ih => exact le_trans (le_max_left a b) (ih (max a b))

theorem mem_le_foldl_max (l : List ℚ) (a b : ℚ) (hb : b ∈ l) : b ≤ l.foldl max a := by
  induction l generalizing a with
  | nil => cases hb
  | cons c t ih =>
    rcases List.mem_cons.mp hb with h | h
    · subst h
      exact le_trans (le_max_right a b) (le_foldl_max_init t (max a b))
    · exact ih (max a c) h

theorem colMin_le_of_mem {col : List ℚ} {v : ℚ} (hv : v ∈ col) : colMin col ≤ v := by
  cases col with
  | nil => cases hv
  | cons a l =>
    rcases List.mem_cons.mp hv with h | h
    · subst h
      exact foldl_min_le_init l v
    · exact foldl_min_le_mem l a v h

theorem le_colMax_of_mem {col : List ℚ} {v : ℚ} (hv : v ∈ col) : v ≤ colMax col := by
  cases col with
  | nil => cases hv
  | cons a l =>
    rcases List.mem_cons.mp hv with h | h
    · subst h
      exact le_foldl_max_init l v
    · exact mem_le_foldl_max l a v h

theorem colMin_lt_colMax {col : List ℚ} {a b : ℚ} (ha : a ∈ col) (hb : b ∈ col)
    (hab : a ≠ b) : colMin col < colMax col := by
  have h1 := colMin_le_of_mem ha
  have h2 := le_colMax_of_mem ha
  have h3 := colMin_le_of_mem hb
  have h4 := le_colMax_of_mem hb
  by_contra hlt
  push_neg at hlt
  exact hab (le_antisymm (by linarith) (by linarith))

theorem normalizeCol_length (col : List ℚ) : (normalizeCol col).length = col.length := by
  unfold normalizeCol
  split <;> simp

theorem normalizeCol_of_ne {col : List ℚ} (h : colMax col ≠ colMin col) :
    normalizeCol col = col.map fun v => (v - colMin col) / (colMax col - colMin col) :=
  if_pos h

theorem normalizeCol_of_eq {col : List ℚ} (h : colMax col = colMin col) :
    normalizeCol col = col := by
  unfold normalizeCol
  simp [h]

theorem mem_normalizeCol_bounds {col : List ℚ} {v : ℚ} (hlt : colMin col < colMax col)
    (hv : v ∈ normalizeCol col) : 0 ≤ v ∧ v ≤ 1 := by
  rw [normalizeCol_of_ne (ne_of_gt hlt)] at hv
  obtain ⟨w, hw, rfl⟩ := List.mem_map.mp hv
  refine ⟨div_nonneg (sub_nonneg.mpr (colMin_le_of_mem hw)) (by linarith), ?_⟩
  rw [div_le_one (by linarith)]
  have := le_colMax_of_mem hw
  linarith

theorem normalizeCol_getD {col : List ℚ} {i : ℕ} (hi : i < col.length)
    (h : colMax col ≠ colMin col) :
    (normalizeCol col).getD i 0 =
      (col.getD i 0 - colMin col) / (colMax col - colMin col) := by
  rw [normalizeCol_of_ne h, List.getD_eq_getElem _ _ (by simpa using hi),
    List.getD_eq_getElem _ _ hi, List.getElem_map]

/-! Helper lemmas about the emitted geometry lists. -/

theorem pointsOf_length (xs ys : List ℚ) (s : ℚ) :
    (pointsOf xs ys s).length = min xs.length ys.length := by
  simp [pointsOf, List.length_zip, normalizeCol_length]

theorem pointsOf_getD {xs ys : List ℚ} (s : ℚ) {i : ℕ} (hx : i < xs.length)
    (hy : i < ys.length) :
    (pointsOf xs ys s).getD i ⟨0, 0, 0⟩ =
      ⟨(normalizeCol xs).getD i 0 * s, (normalizeCol ys).getD i 0 * s, 0⟩ := by
  have hx' : i < (normalizeCol xs).length := by rw [normalizeCol_length]; exact hx
  have hy' : i < (normalizeCol ys).length := by rw [normalizeCol_length]; exact hy
  have hlen : i < (pointsOf xs ys s).length := by
    rw [pointsOf_length]; exact lt_min hx hy
  rw [List.getD_eq_getElem _ _ hlen, List.getD_eq_getElem _ _ hx',
    List.getD_eq_getElem _ _ hy']
  simp [pointsOf, List.getElem_zip]

theorem mem_pointsOf {xs ys : List ℚ} {s : ℚ} {p : Vec3} (hp : p ∈ pointsOf xs ys s) :
    ∃ nx ∈ normalizeCol xs, ∃ ny ∈ normalizeCol ys, p = ⟨nx * s, ny * s, 0⟩ := by
  obtain ⟨⟨nx, ny⟩, hmem, rfl⟩ := List.mem_map.mp hp
  obtain ⟨h1, h2⟩ := List.of_mem_zip hmem
  exact ⟨nx, h1, ny, h2, rfl⟩

theorem layout_placements_length (rows : List (ℚ × ℚ)) (s br sr : ℚ) :
    (layout rows s br sr).1.length = rows.length := by
  simp [layout, layoutFromCols, List.enum_length, pointsOf_length]

theorem layout_connectors_length (rows : List (ℚ × ℚ)) (s br sr : ℚ) :
    (layout rows s br sr).2.length = rows.length - 1 := by
  simp [layout, layoutFromCols, pointsOf_length]

theorem layout_placement_getD (rows : List (ℚ × ℚ)) (s br sr : ℚ) {i : ℕ}
    (hi : i < rows.length) :
    (layout rows s br sr).1.getD i default =
      add_sphere ((pointsOf (rows.map Prod.fst) (rows.map Prod.snd) s).getD i ⟨0, 0, 0⟩)
        br ("Ball_" ++ toString i)
        ⟨(i : ℚ) / (rows.length : ℚ), 1 - (i : ℚ) / (rows.length : ℚ), 4/5, 1⟩ := by
  have hplen : (pointsOf (rows.map Prod.fst) (rows.map Prod.snd) s).length = rows.length := by
    simp [pointsOf_length]
  have hlen : i < (layout rows s br sr).1.length := by
    rw [layout_placements_length]; exact hi
  rw [List.getD_eq_getElem _ _ hlen, List.getD_eq_getElem _ _ (by rw [hplen]; exact hi)]
  simp [layout, layoutFromCols, List.getElem_enum]

theorem layout_connector_getD (rows : List (ℚ × ℚ)) (s br sr : ℚ) {i : ℕ}
    (hi : i + 1 < rows.length) :
    (layout rows s br sr).2.getD i default =
      add_cylinder_between
        ((pointsOf (rows.map Prod.fst) (rows.map Prod.snd) s).getD i ⟨0, 0, 0⟩)
        ((pointsOf (rows.map Prod.fst) (rows.map Prod.snd) s).getD (i + 1) ⟨0, 0, 0⟩)
        sr ("Stick_" ++ toString i) ⟨4/5, 4/5, 4/5, 1⟩ := by
  have hplen : (pointsOf (rows.map Prod.fst) (rows.map Prod.snd) s).length = rows.length := by
    simp [pointsOf_length]
  have hlen : i < (layout rows s br sr).2.length := by
    rw [layout_connectors_length]; omega
  rw [List.getD_eq_getElem _ _ hlen]
  simp only [layout, layoutFromCols, List.getElem_map, List.getElem_range]

theorem add_cylinder_between_spec (p q : Vec3) (r : ℚ) (nm : String) (c : Color) :
    (add_cylinder_between p q r nm c).location = (p + q) / (2 : ℚ) ∧
    (add_cylinder_between p q r nm c).track_dir = q - p ∧
    (add_cylinder_between p q r nm c).track_axis = "Z" ∧
    (add_cylinder_between p q r nm c).depthSq = (q - p).lengthSq ∧
    (add_cylinder_between p q r nm c).color = c := by
  refine ⟨?_, rfl, rfl, rfl, rfl⟩
  show p + (q - p) / (2 : ℚ) = (p + q) / (2 : ℚ)
  ext <;> simp [Vec3.add_def, Vec3.sub_def, Vec3.hdiv_def] <;> ring

theorem mem_layout_placements {rows : List (ℚ × ℚ)} {s br sr : ℚ} {bl : Sphere}
    (h : bl ∈ (layout rows s br sr).1) :
    bl.location ∈ pointsOf (rows.map Prod.fst) (rows.map Prod.snd) s := by
  simp only [layout, layoutFromCols] at h
  obtain ⟨iv, hiv, rfl⟩ := List.mem_map.mp h
  have h2 := List.mem_map_of_mem Prod.snd hiv
  rwa [List.enum_eq_enumFrom, List.enumFrom_map_snd] at h2

/-- C2: for every sample set, the layout emits exactly one sphere per row and
exactly `max 0 (len - 1)` cylinders, in row-index order: the `i`-th emitted
sphere is `Ball_i` and the `i`-th emitted cylinder is `Stick_i`. -/
theorem layout_counts_and_row_order (rows : List (ℚ × ℚ)) (s br sr : ℚ) :
    (layout rows s br sr).1.length = rows.length ∧
    ((layout rows s br sr).2.length : ℤ) = max 0 ((rows.length : ℤ) - 1) ∧
    (∀ i, i < rows.length →
      ((layout rows s br sr).1.getD i default).name = "Ball_" ++ toString i) ∧
    (∀ i, i + 1 < rows.length →
      ((layout rows s br sr).2.getD i default).name = "Stick_" ++ toString i) := by
  refine ⟨layout_placements_length rows s br sr, ?_, ?_, ?_⟩
  · rw [layout_connectors_length]
    omega
  · intro i hi
    rw [layout_placement_getD rows s br sr hi]
    rfl
  · intro i hi
    rw [layout_connector_getD rows s br sr hi]
    rfl

theorem layout_counts_and_row_order_witness :
    ((layout [((0 : ℚ), (0 : ℚ)), (10, 0)] 5 1 1).1.getD 1 default).name =
      "Ball_" ++ toString 1 ∧
    ((layout [((0 : ℚ), (0 : ℚ)), (10, 0)] 5 1 1).2.getD 0 default).name =
      "Stick_" ++ toString 0 :=
  ⟨(layout_counts_and_row_order [((0 : ℚ), (0 : ℚ)), (10, 0)] 5 1 1).2.2.1 1 (by norm_num),
    (layout_counts_and_row_order [((0 : ℚ), (0 : ℚ)), (10, 0)] 5 1 1).2.2.2 0 (by norm_num)⟩

/-- C3: the connector emitted for the adjacent pair `(i, i + 1)` of points has
its center at the midpoint `(start + end) / 2`, its squared length (the host
receives `depth = direction.length`, the nonnegative square root of
`depthSq`) equal to the squared norm of `end - start`, its canonical local
axis `Z` tracked to the direction `end - start`, and the fixed color
`(0.8, 0.8, 0.8, 1)` independent of `i`. -/
theorem connector_midpoint_length_axis_color (rows : List (ℚ × ℚ)) (s br sr : ℚ)
    (i : ℕ) (hi : i + 1 < rows.length) :
    ((layout rows s br sr).2.getD i default).location =
      ((pointsOf (rows.map Prod.fst) (rows.map Prod.snd) s).getD i ⟨0, 0, 0⟩ +
        (pointsOf (rows.map Prod.fst) (rows.map Prod.snd) s).getD (i + 1) ⟨0, 0, 0⟩) /
        (2 : ℚ) ∧
    ((layout rows s br sr).2.getD i default).track_dir =
      (pointsOf (rows.map Prod.fst) (rows.map Prod.snd) s).getD (i + 1) ⟨0, 0, 0⟩ -
        (pointsOf (rows.map Prod.fst) (rows.map Prod.snd) s).getD i ⟨0, 0, 0⟩ ∧
    ((layout rows s br sr).2.getD i default).track_axis = "Z" ∧
    ((layout rows s br sr).2.getD i default).depthSq =
      ((pointsOf (rows.map Prod.fst) (rows.map Prod.snd) s).getD (i + 1) ⟨0, 0, 0⟩ -
        (pointsOf (rows.map Prod.fst) (rows.map Prod.snd) s).getD i ⟨0, 0, 0⟩).lengthSq ∧
    ((layout rows s br sr).2.getD i default).color = ⟨4/5, 4/5, 4/5, 1⟩ := by
  rw [layout_connector_getD rows s br sr hi]
  exact add_cylinder_between_spec _ _ _ _ _

theorem connector_midpoint_length_axis_color_witness :
    ((layout [((0 : ℚ), (0 : ℚ)), (10, 0), (10, 10)] 5 1 1).2.getD 0 default).location =
      ((pointsOf ([((0 : ℚ), (0 : ℚ)), (10, 0), (10, 10)].map Prod.fst)
          ([((0 : ℚ), (0 : ℚ)), (10, 0), (10, 10)].map Prod.snd) 5).getD 0 ⟨0, 0, 0⟩ +
        (pointsOf ([((0 : ℚ), (0 : ℚ)), (10, 0), (10, 10)].map Prod.fst)
          ([((0 : ℚ), (0 : ℚ)), (10, 0), (10, 10)].map Prod.snd) 5).getD 1 ⟨0, 0, 0⟩) /
        (2 : ℚ) ∧
    ((layout [((0 : ℚ), (0 : ℚ)), (10, 0), (10, 10)] 5 1 1).2.getD 0 default).color =
      ⟨4/5, 4/5, 4/5, 1⟩ := by
  have h := connector_midpoint_length_axis_color
    [((0 : ℚ), (0 : ℚ)), (10, 0), (10, 10)] 5 1 1 0 (by norm_num)
  exact ⟨h.1, h.2.2.2.2⟩

/-- C4: ball `i` of a layout over `N` rows receives the RGBA color
`(i / N, 1 - i / N, 0.8, 1)`, and the gradient is monotonic: for `i < j` the
red channel is nondecreasing and the green channel is nonincreasing. -/
theorem ball_color_formula_and_monotone (rows : List (ℚ × ℚ)) (s br sr : ℚ) :
    (∀ i, i < rows.length →
      ((layout rows s br sr).1.getD i default).color =
        ⟨(i : ℚ) / (rows.length : ℚ), 1 - (i : ℚ) / (rows.length : ℚ), 4/5, 1⟩) ∧
    (∀ i j, i < j → j < rows.length →
      ((layout rows s br sr).1.getD i default).color.r ≤
        ((layout rows s br sr).1.getD j default).color.r ∧
      ((layout rows s br sr).1.getD j default).color.g ≤
        ((layout rows s br sr).1.getD i default).color.g) := by
  have hc : ∀ i, i < rows.length →
      ((layout rows s br sr).1.getD i default).color =
        ⟨(i : ℚ) / (rows.length : ℚ), 1 - (i : ℚ) / (rows.length : ℚ), 4/5, 1⟩ := by
    intro i hi
    rw [layout_placement_getD rows s br sr hi]
    rfl
  refine ⟨hc, ?_⟩
  intro i j hij hj
  have hi : i < rows.length := lt_trans hij hj
  rw [hc i hi, hc j hj]
  have hN : (0 : ℚ) < (rows.length : ℚ) := by
    have : 0 < rows.length := by omega
    exact_mod_cast this
  have hij' : (i : ℚ) ≤ (j : ℚ) := by exact_mod_cast le_of_lt hij
  have hr : (i : ℚ) / (rows.length : ℚ) ≤ (j : ℚ) / (rows.length : ℚ) :=
    (div_le_div_iff_of_pos_right hN).mpr hij'
  exact ⟨hr, by simpa using sub_le_sub_left hr 1⟩

theorem ball_color_formula_and_monotone_witness :
    ((layout [((0 : ℚ), (0 : ℚ)), (10, 0), (10, 10)] 5 1 1).1.getD 0 default).color.r ≤
      ((layout [((0 : ℚ), (0 : ℚ)), (10, 0), (10, 10)] 5 1 1).1.getD 2 default).color.r ∧
    ((layout [((0 : ℚ), (0 : ℚ)), (10, 0), (10, 10)] 5 1 1).1.getD 2 default).color.g ≤
      ((layout [((0 : ℚ), (0 : ℚ)), (10, 0), (10, 10)] 5 1 1).1.getD 0 default).color.g :=
  (ball_color_formula_and_monotone [((0 : ℚ), (0 : ℚ)), (10, 0), (10, 10)] 5 1 1).2
    0 2 (by norm_num) (by norm_num)

/-- C10: the per-row loop body never runs for an empty frame (an empty sample
set emits no geometry at all), the divisor `len(df)` is positive whenever a
ball exists, and every emitted ball has red channel in `[0, 1)` and green
channel in `(0, 1]`. -/
theorem ball_color_channels_safe (rows : List (ℚ × ℚ)) (s br sr : ℚ) :
    layout [] s br sr = ([], []) ∧
    ((layout rows s br sr).1 ≠ [] → 0 < (rows.length : ℚ)) ∧
    (∀ i, i < rows.length →
      0 ≤ ((layout rows s br sr).1.getD i default).color.r ∧
      ((layout rows s br sr).1.getD i default).color.r < 1 ∧
      0 < ((layout rows s br sr).1.getD i default).color.g ∧
      ((layout rows s br sr).1.getD i default).color.g ≤ 1) := by
  refine ⟨?_, ?_, ?_⟩
  · simp [layout, layoutFromCols, pointsOf, normalizeCol]
  · intro hne
    have : 0 < (layout rows s br sr).1.length := List.length_pos.mpr hne
    rw [layout_placements_length] at this
    exact_mod_cast this
  · intro i hi
    rw [layout_placement_getD rows s br sr hi]
    have hN : (0 : ℚ) < (rows.length : ℚ) := by
      have : 0 < rows.length := Nat.pos_of_ne_zero (by omega)
      exact_mod_cast this
    have hiN : (i : ℚ) < (rows.length : ℚ) := by exact_mod_cast hi
    have h1 : 0 ≤ (i : ℚ) / (rows.length : ℚ) :=
      div_nonneg (by positivity) (le_of_lt hN)
    have h2 : (i : ℚ) / (rows.length : ℚ) < 1 := (div_lt_one hN).mpr hiN
    exact ⟨h1, h2, by simpa [add_sphere] using h2, by simpa [add_sphere] using h1⟩

theorem ball_color_channels_safe_witness :
    0 ≤ ((layout [((3 : ℚ), (4 : ℚ))] 5 1 1).1.getD 0 default).color.r ∧
    ((layout [((3 : ℚ), (4 : ℚ))] 5 1 1).1.getD 0 default).color.r < 1 ∧
    0 < ((layout [((3 : ℚ), (4 : ℚ))] 5 1 1).1.getD 0 default).color.g ∧
    ((layout [((3 : ℚ), (4 : ℚ))] 5 1 1).1.getD 0 default).color.g ≤ 1 :=
  (ball_color_channels_safe [((3 : ℚ), (4 : ℚ))] 5 1 1).2.2 0 (by norm_num)

/-- C1: when a column holds at least two distinct values it is min-max
normalized — the minimum raw value maps to 0, the maximum to 1, every
normalized value lies in `[0, 1]` — hence every placement coordinate on that
axis lies in `[0, spacing]` (spacing is configured with a positive minimum,
so `0 ≤ spacing` is assumed), the `z` coordinate is always 0, and the sample
set `[(0,0), (10,0), (10,10)]` with spacing 5 is placed at
`(0,0,0), (5,0,0), (5,5,0)`. -/
theorem minmax_normalization_and_planar_positions :
    (∀ col : List ℚ, (∃ a ∈ col, ∃ b ∈ col, a ≠ b) →
      (colMin col ∈ col ∧ colMax col ∈ col) ∧
      (∀ v ∈ normalizeCol col, 0 ≤ v ∧ v ≤ 1) ∧
      (∀ i, i < col.length →
        (col.getD i 0 = colMin col → (normalizeCol col).getD i 0 = 0) ∧
        (col.getD i 0 = colMax col → (normalizeCol col).getD i 0 = 1))) ∧
    (∀ rows : List (ℚ × ℚ), ∀ s br sr : ℚ, 0 ≤ s →
      (∀ bl ∈ (layout rows s br sr).1, bl.location.z = 0) ∧
      ((∃ p ∈ rows, ∃ q ∈ rows, p.1 ≠ q.1) →
        ∀ bl ∈ (layout rows s br sr).1, 0 ≤ bl.location.x ∧ bl.location.x ≤ s) ∧
      ((∃ p ∈ rows, ∃ q ∈ rows, p.2 ≠ q.2) →
        ∀ bl ∈ (layout rows s br sr).1, 0 ≤ bl.location.y ∧ bl.location.y ≤ s)) ∧
    (∀ br sr : ℚ,
      (layout [((0 : ℚ), (0 : ℚ)), (10, 0), (10, 10)] 5 br sr).1.map Sphere.location =
        [⟨0, 0, 0⟩, ⟨5, 0, 0⟩, ⟨5, 5, 0⟩]) := by
  have hmem : ∀ col : List ℚ, col ≠ [] → colMin col ∈ col ∧ colMax col ∈ col := by
    intro col hne
    cases col with
    | nil => exact absurd rfl hne
    | cons a l =>
      constructor
      · show l.foldl min a ∈ a :: l
        clear hne
        induction l generalizing a with
        | nil => exact List.mem_singleton.mpr rfl
        | cons b t ih =>
          rcases List.mem_cons.mp (ih (min a b)) with h | h
          · rcases min_choice a b with hm | hm
            · exact List.mem_cons.mpr (Or.inl (h.trans hm))
            · exact List.mem_cons.mpr (Or.inr (List.mem_cons.mpr (Or.inl (h.trans hm))))
          · exact List.mem_cons.mpr (Or.inr (List.mem_cons.mpr (Or.inr h)))
      · show l.foldl max a ∈ a :: l
        clear hne
        induction l generalizing a with
        | nil => exact List.mem_singleton.mpr rfl
        | cons b t ih =>
          rcases List.mem_cons.mp (ih (max a b)) with h | h
          · rcases max_choice a b with hm | hm
            · exact List.mem_cons.mpr (Or.inl (h.trans hm))
            · exact List.mem_cons.mpr (Or.inr (List.mem_cons.mpr (Or.inl (h.trans hm))))
          · exact List.mem_cons.mpr (Or.inr (List.mem_cons.mpr (Or.inr h)))
  refine ⟨?_, ?_, ?_⟩
  · rintro col ⟨a, ha, b, hb, hab⟩
    have hlt := colMin_lt_colMax ha hb hab
    have hne : colMax col ≠ colMin col := (ne_of_lt hlt).symm
    have hd : (0 : ℚ) < colMax col - colMin col := by linarith
    refine ⟨hmem col (by rintro rfl; cases ha), fun v hv => mem_normalizeCol_bounds hlt hv,
      fun i hi => ⟨?_, ?_⟩⟩
    · intro h
      rw [normalizeCol_getD hi hne, h, sub_self, zero_div]
    · intro h
      rw [normalizeCol_getD hi hne, h, div_self (ne_of_gt hd)]
  · intro rows s br sr hs
    refine ⟨?_, ?_, ?_⟩
    · intro bl hbl
      obtain ⟨nx, _, ny, _, hloc⟩ := mem_pointsOf (mem_layout_placements hbl)
      rw [hloc]
    · rintro ⟨p, hp, q, hq, hpq⟩ bl hbl
      have hlt := colMin_lt_colMax (List.mem_map_of_mem Prod.fst hp)
        (List.mem_map_of_mem Prod.fst hq) hpq
      obtain ⟨nx, hnx, ny, hny, hloc⟩ := mem_pointsOf (mem_layout_placements hbl)
      obtain ⟨h0, h1⟩ := mem_normalizeCol_bounds hlt hnx
      rw [hloc]
      exact ⟨mul_nonneg h0 hs, by
        calc nx * s ≤ 1 * s := mul_le_mul_of_nonneg_right h1 hs
          _ = s := one_mul s⟩
    · rintro ⟨p, hp, q, hq, hpq⟩ bl hbl
      have hlt := colMin_lt_colMax (List.mem_map_of_mem Prod.snd hp)
        (List.mem_map_of_mem Prod.snd hq) hpq
      obtain ⟨nx, hnx, ny, hny, hloc⟩ := mem_pointsOf (mem_layout_placements hbl)
      obtain ⟨h0, h1⟩ := mem_normalizeCol_bounds hlt hny
      rw [hloc]
      exact ⟨mul_nonneg h0 hs, by
        calc ny * s ≤ 1 * s := mul_le_mul_of_nonneg_right h1 hs
          _ = s := one_mul s⟩
  · intro br sr
    norm_num [layout, layoutFromCols, pointsOf, normalizeCol, colMin, colMax, List.foldl,
      min_def, max_def, List.zip, List.zipWith, List.enum_eq_enumFrom, List.enumFrom,
      add_sphere]

theorem minmax_normalization_and_planar_positions_witness :
    (∀ v ∈ normalizeCol [(0 : ℚ), 10, 10], 0 ≤ v ∧ v ≤ 1) ∧
    (∀ bl ∈ (layout [((0 : ℚ), (0 : ℚ)), (10, 0), (10, 10)] 5 1 1).1,
      0 ≤ bl.location.x ∧ bl.location.x ≤ 5) :=
  ⟨(minmax_normalization_and_planar_positions.1 [(0 : ℚ), 10, 10]
      ⟨0, by norm_num, 10, by norm_num, by norm_num⟩).2.1,
    (minmax_normalization_and_planar_positions.2.1
      [((0 : ℚ), (0 : ℚ)), (10, 0), (10, 10)] 5 1 1 (by norm_num)).2.1
      ⟨(0, 0), by norm_num, (10, 0), by norm_num, by norm_num⟩⟩

/-- C5: when a column is constant (`max == min`) the normalization falls back
to the raw values; in particular the single-row sample set `[(3, 4)]` yields
exactly one placement at `(3 * spacing, 4 * spacing, 0)` and no connector,
without failing. -/
theorem degenerate_column_raw_fallback :
    (∀ col : List ℚ, colMax col = colMin col → normalizeCol col = col) ∧
    (∀ s br sr : ℚ,
      layout [((3 : ℚ), (4 : ℚ))] s br sr =
        ([⟨⟨3 * s, 4 * s, 0⟩, br, "Ball_0", ⟨0, 1, 4/5, 1⟩⟩], [])) ∧
    (∀ s br sr : ℚ,
      CSV_OT_VisualizeGraph_execute ⟨"data.csv", "x", "y", s, br, sr, true, ""⟩
          ⟨[("x", [.num 3]), ("y", [.num 4])]⟩ =
        .finished [⟨⟨3 * s, 4 * s, 0⟩, br, "Ball_0", ⟨0, 1, 4/5, 1⟩⟩] [] "Graph created.") := by
  have hlay : ∀ s br sr : ℚ,
      layout [((3 : ℚ), (4 : ℚ))] s br sr =
        ([⟨⟨3 * s, 4 * s, 0⟩, br, "Ball_0", ⟨0, 1, 4/5, 1⟩⟩], []) := by
    intro s br sr
    norm_num [layout, layoutFromCols, pointsOf, normalizeCol, colMin, colMax, List.foldl,
      List.zip, List.zipWith, List.enum_eq_enumFrom, List.enumFrom, add_sphere]
    rfl
  refine ⟨fun col h => normalizeCol_of_eq h, hlay, ?_⟩
  intro s br sr
  have hstep : CSV_OT_VisualizeGraph_execute ⟨"data.csv", "x", "y", s, br, sr, true, ""⟩
      ⟨[("x", [Cell.num 3]), ("y", [Cell.num 4])]⟩ =
      .finished (layout [((3 : ℚ), (4 : ℚ))] s br sr).1
        (layout [((3 : ℚ), (4 : ℚ))] s br sr).2 "Graph created." := rfl
  rw [hstep, hlay]

theorem degenerate_column_raw_fallback_witness :
    normalizeCol [(3 : ℚ), 3] = [(3 : ℚ), 3] :=
  degenerate_column_raw_fallback.1 [(3 : ℚ), 3]
    (by norm_num [colMin, colMax, List.foldl])

theorem astypeFloat_eq_error {l : List Cell} {raw : String} (h : firstBad l = some raw) :
    astypeFloat l = .error ("could not convert string to float: " ++ raw) := by
  induction l with
  | nil => cases h
  | cons c cs ih =>
    cases c with
    | num v =>
      rw [firstBad] at h
      simp [astypeFloat, Cell.toFloat, ih h]
    | nonNumeric r =>
      rw [firstBad] at h
      cases h
      rfl

theorem astypeFloat_eq_ok {l : List Cell} (h : firstBad l = none) :
    ∃ vs, astypeFloat l = .ok vs := by
  induction l with
  | nil => exact ⟨[], rfl⟩
  | cons c cs ih =>
    cases c with
    | num v =>
      rw [firstBad] at h
      obtain ⟨vs, hvs⟩ := ih h
      exact ⟨v :: vs, by simp [astypeFloat, Cell.toFloat, hvs]⟩
    | nonNumeric r =>
      rw [firstBad] at h
      cases h

/-- C6: when some value in either selected column cannot be converted to a
number, the visualize run is cancelled with a message naming the offending
field text (pandas raises before any geometry is emitted, since both
`astype(float)` calls precede the loops), and zero placements and zero
connectors are realized.  The message surfaces through the generic handler
as `Failed to visualize: could not convert string to float: <raw>`. -/
theorem conversion_failure_aborts_whole_layout (props : CSVVisualizerProps) (df : Df)
    (raw : String) (hx : props.x_column ∈ df.colNames) (hy : props.y_column ∈ df.colNames)
    (hbad : firstBad (df.col props.x_column) = some raw ∨
      (firstBad (df.col props.x_column) = none ∧
        firstBad (df.col props.y_column) = some raw)) :
    CSV_OT_VisualizeGraph_execute props df =
      .cancelled ("Failed to visualize: could not convert string to float: " ++ raw) ∧
    (CSV_OT_VisualizeGraph_execute props df).placements = [] ∧
    (CSV_OT_VisualizeGraph_execute props df).connectors = [] := by
  have hcond : ¬(props.x_column ∉ df.colNames ∨ props.y_column ∉ df.colNames) := by
    push_neg
    exact ⟨hx, hy⟩
  have hmodel : create_ball_stick_model df props.x_column props.y_column props.spacing
      props.ball_radius props.stick_radius =
      .error ("could not convert string to float: " ++ raw) := by
    rcases hbad with h | ⟨h1, h2⟩
    · rw [create_ball_stick_model, astypeFloat_eq_error h]
    · obtain ⟨vs, hvs⟩ := astypeFloat_eq_ok h1
      rw [create_ball_stick_model, hvs, astypeFloat_eq_error h2]
  have hres : CSV_OT_VisualizeGraph_execute props df =
      .cancelled ("Failed to visualize: could not convert string to float: " ++ raw) := by
    rw [CSV_OT_VisualizeGraph_execute, if_neg hcond, hmodel]
    rfl
  exact ⟨hres, by rw [hres]; rfl, by rw [hres]; rfl⟩

theorem conversion_failure_aborts_whole_layout_witness :
    CSV_OT_VisualizeGraph_execute ⟨"d.csv", "x", "y", 5, 1, 1, true, ""⟩
        ⟨[("x", [Cell.nonNumeric "abc"]), ("y", [Cell.num 1])]⟩ =
      .cancelled ("Failed to visualize: could not convert string to float: " ++ "abc") ∧
    (CSV_OT_VisualizeGraph_execute ⟨"d.csv", "x", "y", 5, 1, 1, true, ""⟩
        ⟨[("x", [Cell.nonNumeric "abc"]), ("y", [Cell.num 1])]⟩).placements = [] ∧
    (CSV_OT_VisualizeGraph_execute ⟨"d.csv", "x", "y", 5, 1, 1, true, ""⟩
        ⟨[("x", [Cell.nonNumeric "abc"]), ("y", [Cell.num 1])]⟩).connectors = [] :=
  conversion_failure_aborts_whole_layout ⟨"d.csv", "x", "y", 5, 1, 1, true, ""⟩
    ⟨[("x", [Cell.nonNumeric "abc"]), ("y", [Cell.num 1])]⟩ "abc"
    (by decide) (by decide) (Or.inl (by decide))

/-- C7: when either configured column name is absent from the header, the
visualize run is cancelled with a column-not-found message in which both
configured column names appear verbatim, and zero placements and zero
connectors are realized. -/
theorem missing_column_cancels_with_both_names (props : CSVVisualizerProps) (df : Df)
    (h : props.x_column ∉ df.colNames ∨ props.y_column ∉ df.colNames) :
    CSV_OT_VisualizeGraph_execute props df =
      .cancelled ("Column " ++ props.x_column ++ " or " ++ props.y_column ++
        " not found in CSV.") ∧
    (∃ pre mid post : String,
      "Column " ++ props.x_column ++ " or " ++ props.y_column ++ " not found in CSV." =
        pre ++ props.x_column ++ mid ++ props.y_column ++ post) ∧
    (CSV_OT_VisualizeGraph_execute props df).placements = [] ∧
    (CSV_OT_VisualizeGraph_execute props df).connectors = [] := by
  have hres : CSV_OT_VisualizeGraph_execute props df =
      .cancelled ("Column " ++ props.x_column ++ " or " ++ props.y_column ++
        " not found in CSV.") := by
    rw [CSV_OT_VisualizeGraph_execute, if_pos h]
  exact ⟨hres, ⟨"Column ", " or ", " not found in CSV.", rfl⟩,
    by rw [hres]; rfl, by rw [hres]; rfl⟩

theorem missing_column_cancels_with_both_names_witness :
    CSV_OT_VisualizeGraph_execute ⟨"d.csv", "a", "b", 5, 1, 1, true, ""⟩
        ⟨[("x", [Cell.num 1]), ("y", [Cell.num 2])]⟩ =
      .cancelled ("Column " ++ "a" ++ " or " ++ "b" ++ " not found in CSV.") ∧
    (CSV_OT_VisualizeGraph_execute ⟨"d.csv", "a", "b", 5, 1, 1, true, ""⟩
        ⟨[("x", [Cell.num 1]), ("y", [Cell.num 2])]⟩).placements = [] :=
  have h := missing_column_cancels_with_both_names ⟨"d.csv", "a", "b", 5, 1, 1, true, ""⟩
    ⟨[("x", [Cell.num 1]), ("y", [Cell.num 2])]⟩ (Or.inl (by decide))
  ⟨h.1, h.2.2.1⟩

/-- C8: a failing CSV read is caught by the load operator: the failure is
surfaced as a human-readable, non-empty text in `error_message`, the
`file_loaded` flag is left `false`, and the handler still runs to completion
(the model is a total function returning a status, mirroring the
`try/except` that never re-raises). -/
theorem load_failure_caught_and_surfaced (props : CSVVisualizerProps) (fp e : String) :
    (CSV_OT_LoadFile_execute props fp (.error e)).1.file_loaded = false ∧
    (CSV_OT_LoadFile_execute props fp (.error e)).1.error_message =
      "Error reading CSV: " ++ e ∧
    0 < (CSV_OT_LoadFile_execute props fp (.error e)).1.error_message.length ∧
    (CSV_OT_LoadFile_execute props fp (.error e)).2 = .FINISHED := by
  refine ⟨rfl, rfl, ?_, rfl⟩
  show 0 < ("Error reading CSV: " ++ e).length
  rw [String.length_append]
  have h19 : ("Error reading CSV: " : String).length = 19 := rfl
  omega

/-- C9: `CSV_OT_LoadFile.execute` returns the FINISHED status whatever the read
outcome; on a failed read the stored `filepath` is unchanged (it is assigned
only after a successful read, in which case it becomes the picked path) and
`error_message` is non-empty. -/
theorem load_execute_always_finished (props : CSVVisualizerProps) (fp e : String)
    (r : Except String Df) (df : Df) :
    (CSV_OT_LoadFile_execute props fp r).2 = .FINISHED ∧
    (CSV_OT_LoadFile_execute props fp (.error e)).1.filepath = props.filepath ∧
    0 < (CSV_OT_LoadFile_execute props fp (.error e)).1.error_message.length ∧
    (CSV_OT_LoadFile_execute props fp (.ok df)).1.filepath = fp ∧
    (CSV_OT_LoadFile_execute props fp (.ok df)).1.file_loaded = true := by
  refine ⟨?_, rfl, ?_, rfl, rfl⟩
  · cases r <;> rfl
  · show 0 < ("Error reading CSV: " ++ e).length
    rw [String.length_append]
    have h19 : ("Error reading CSV: " : String).length = 19 := rfl
    omega

end DataVisualizer
